import Mathlib

/-!
Shallow embedding of the core logic of `ecu/sbl/aace/datalake/common.py`
(fuzzy value normalization and the integrity-checked join) together with
theorems settling the specification claims.

Modelling conventions:
* Python values that may be null / non-string are the sum type `PyVal`
  (text, integer, missing), with Python truthiness and `str()` coercion
  embedded explicitly.
* `str.title()` is embedded for ASCII characters (the only characters the
  repository's vocabularies and column names use).
* `difflib.SequenceMatcher(None, a, b).ratio()` is embedded exactly: the
  `b2j` index with the autojunk "popular element" rule, the
  `find_longest_match` dynamic-programming scan with its tie-breaking, the
  junk-free extension loops, the recursive matching-block decomposition,
  and the final `2 * matches / total_length` ratio, computed in `ℚ`.
* Datasets are column lists plus rows (finite maps from column name to an
  optional value); the external engine's join, select and count operations
  are embedded at the list level with SQL three-valued logic for the join
  conditions.
-/

set_option autoImplicit false

namespace Datalake

/-! ## Python string primitives -/

/-- ASCII model of a Python "cased" character, the notion `str.title()`
uses to detect word boundaries. -/
def isAsciiAlpha (c : Char) : Bool :=
  decide ((65 ≤ c.toNat ∧ c.toNat ≤ 90) ∨ (97 ≤ c.toNat ∧ c.toNat ≤ 122))

/-- ASCII uppercase conversion (used by the title-case model). -/
def asciiUpper (c : Char) : Char :=
  if 97 ≤ c.toNat ∧ c.toNat ≤ 122 then Char.ofNat (c.toNat - 32) else c

/-- ASCII lowercase conversion (used by the title-case model). -/
def asciiLower (c : Char) : Char :=
  if 65 ≤ c.toNat ∧ c.toNat ≤ 90 then Char.ofNat (c.toNat + 32) else c

/-- Core loop of Python `str.title()`: a cased character is uppercased when
the previous character was not cased and lowercased otherwise; non-cased
characters pass through and reset the word state. -/
def pyTitleAux : Bool → List Char → List Char
  | _, [] => []
  | prevCased, c :: cs =>
    if isAsciiAlpha c then
      (if prevCased then asciiLower c else asciiUpper c) :: pyTitleAux true cs
    else
      c :: pyTitleAux false cs

/-- Python `str.title()` (ASCII model). -/
def pyTitle (s : String) : String := ⟨pyTitleAux false s.data⟩

/-- A Python value as passed to `fixDodgyThing`: a string, an integer, or
null/missing (the dynamic `value` parameter of the source). -/
inductive PyVal where
  | vNone
  | vStr (s : String)
  | vInt (n : Int)
  deriving DecidableEq

/-- Python truthiness of a `PyVal` (`if not value:`): null, the empty
string and zero are falsy. -/
def pyFalsy : PyVal → Bool
  | .vNone => true
  | .vStr s => s = ""
  | .vInt n => n = 0

/-- Python `str()` coercion of a `PyVal`. -/
def pyStr : PyVal → String
  | .vNone => "None"
  | .vStr s => s
  | .vInt n => Int.repr n

/-! ## List helpers (common.py lines 491-514) -/

/-- Embedding of `insertValueIntoList` (common.py lines 491-505).
If `oldVal` is absent the list gets `newVal` appended; if both are present
the list is returned unchanged; otherwise every occurrence of `oldVal` is
replaced by `newVal` and `oldVal` is appended at the end. -/
def insertValueIntoList (theList : List String) (oldVal newVal : String) : List String :=
  if oldVal ∈ theList then
    if newVal ∈ theList then theList
    else (theList.map fun item => if item = oldVal then newVal else item) ++ [oldVal]
  else theList ++ [newVal]

/-- Embedding of `replaceValueInList` (common.py lines 513-514). -/
def replaceValueInList (theList : List String) (oldVal newVal : String) : List String :=
  theList.map fun item => if item = oldVal then newVal else item

/-! ## difflib.SequenceMatcher (CPython stdlib, as used at common.py line 461)

`are_strings_similar` delegates to
`difflib.SequenceMatcher(None, str1, str2).ratio()`.  The matcher below
embeds that algorithm: `b2jGet` is the position index of the second string
with the autojunk rule (elements occurring more than `n / 100 + 1` times
are dropped from the index when `n ≥ 200`); `flmCore` is the
`find_longest_match` dynamic-programming scan with its strict
`k > bestsize` tie-breaking; `extendLeft`/`extendRight` are the junk-free
extension loops (the junk set is empty because the matcher is constructed
with `isjunk = None`, so the two junk extension loops of the original can
never fire and are omitted); `matchSumFuel` adds up the sizes of the
recursively collected matching blocks exactly as `get_matching_blocks`
does for `ratio()`. -/

/-- Positions of character `c` in `b` (ascending), with the autojunk
"popular element" rule applied. -/
def b2jGet (b : List Char) (c : Char) : List Nat :=
  if 200 ≤ b.length ∧ b.length / 100 + 1 < b.count c then []
  else (List.range b.length).filter fun j => b.get? j = some c

/-- State of the `find_longest_match` scan: the previous/current row of
the chain-length table and the best block found so far. -/
structure FlmState where
  j2len : Nat → Nat
  besti : Nat
  bestj : Nat
  bestsize : Nat

/-- One row of the `find_longest_match` scan: fold over the positions of
`a[i]` in `b` (already ascending), restricted to `[blo, bhi)`, extending
chains from the previous row and updating the best block on a strict
improvement. -/
def flmRow (blo bhi i : Nat) (js : List Nat) (st : FlmState) : FlmState :=
  (js.filter fun j => blo ≤ j ∧ j < bhi).foldl
    (fun acc j =>
      let k := (if j = 0 then 0 else st.j2len (j - 1)) + 1
      let nj := fun j' => if j' = j then k else acc.j2len j'
      if acc.bestsize < k then ⟨nj, i + 1 - k, j + 1 - k, k⟩
      else ⟨nj, acc.besti, acc.bestj, acc.bestsize⟩)
    ⟨fun _ => 0, st.besti, st.bestj, st.bestsize⟩

/-- The dynamic-programming part of `find_longest_match` over
`a[alo:ahi]` and `b[blo:bhi]`. -/
def flmCore (a b : List Char) (alo ahi blo bhi : Nat) : FlmState :=
  (List.range' alo (ahi - alo)).foldl
    (fun st i => flmRow blo bhi i (match a.get? i with | some c => b2jGet b c | _ => []) st)
    ⟨fun _ => 0, alo, blo, 0⟩

/-- Junk-free left extension loop of `find_longest_match` (fuel-indexed;
called with fuel `besti`, enough for the at most `besti - alo` steps). -/
def extendLeft (a b : List Char) (alo blo : Nat) : Nat → Nat × Nat × Nat → Nat × Nat × Nat
  | 0, s => s
  | fuel + 1, (bi, bj, bs) =>
    if alo < bi ∧ blo < bj ∧ (a.get? (bi - 1)).isSome ∧ a.get? (bi - 1) = b.get? (bj - 1) then
      extendLeft a b alo blo fuel (bi - 1, bj - 1, bs + 1)
    else (bi, bj, bs)

/-- Junk-free right extension loop of `find_longest_match` (fuel-indexed;
called with fuel `ahi`, enough for the at most `ahi - bi - bs` steps). -/
def extendRight (a b : List Char) (ahi bhi bi bj : Nat) : Nat → Nat → Nat
  | 0, bs => bs
  | fuel + 1, bs =>
    if bi + bs < ahi ∧ bj + bs < bhi ∧ (a.get? (bi + bs)).isSome ∧ a.get? (bi + bs) = b.get? (bj + bs) then
      extendRight a b ahi bhi bi bj fuel (bs + 1)
    else bs

/-- `SequenceMatcher.find_longest_match` on `a[alo:ahi]`, `b[blo:bhi]`:
the DP scan followed by the two junk-free extension loops; returns
`(besti, bestj, bestsize)`. -/
def find_longest_match (a b : List Char) (alo ahi blo bhi : Nat) : Nat × Nat × Nat :=
  let st := flmCore a b alo ahi blo bhi
  let e := extendLeft a b alo blo st.besti (st.besti, st.bestj, st.bestsize)
  let bs := extendRight a b ahi bhi e.1 e.2.1 ahi e.2.2
  (e.1, e.2.1, bs)

/-- Total size of the matching blocks of `get_matching_blocks` restricted
to `a[alo:ahi] × b[blo:bhi]` (fuel-indexed; the intervals shrink strictly,
so fuel `|a| + |b| + 1` always suffices at the top level). -/
def matchSumFuel (a b : List Char) : Nat → Nat → Nat → Nat → Nat → Nat
  | 0, _, _, _, _ => 0
  | fuel + 1, alo, ahi, blo, bhi =>
    let m := find_longest_match a b alo ahi blo bhi
    if m.2.2 = 0 then 0
    else
      m.2.2 + (if alo < m.1 ∧ blo < m.2.1 then matchSumFuel a b fuel alo m.1 blo m.2.1 else 0)
            + (if m.1 + m.2.2 < ahi ∧ m.2.1 + m.2.2 < bhi then
                 matchSumFuel a b fuel (m.1 + m.2.2) ahi (m.2.1 + m.2.2) bhi else 0)

/-- `sum(size for block in get_matching_blocks())` over the full strings. -/
def matchSum (a b : List Char) : Nat :=
  matchSumFuel a b (a.length + b.length + 1) 0 a.length 0 b.length

/-- `SequenceMatcher(None, a, b).ratio()`, computed exactly in `ℚ`
(`_calculate_ratio`: `2 * matches / (len(a) + len(b))`, and `1.0` when both
strings are empty). -/
def difflibRatio (a b : List Char) : ℚ :=
  if a.length + b.length = 0 then 1
  else mkRat (2 * matchSum a b) (a.length + b.length)

/-- Embedding of `are_strings_similar` (common.py lines 452-462): the
sequence-matcher ratio compared against the threshold (default `0.6`). -/
def are_strings_similar (str1 str2 : String) (threshold : ℚ) : Bool :=
  threshold ≤ difflibRatio str1.data str2.data

/-! ## fixDodgyThing (common.py lines 470-483) -/

/-- The value entering vocabulary matching in `fixDodgyThing` (lines
473-477): falsy inputs are replaced by the literal `"None Supplied"`,
any other input is coerced with `str()`, and the result is title-cased. -/
def normalizeBase (value : PyVal) : String :=
  pyTitle (if pyFalsy value then "None Supplied" else pyStr value)

/-- Embedding of `fixDodgyThing` (common.py lines 470-483).  The
vocabulary parameter is the list form of `legit_values` (`None` and a
single string are the empty and singleton lists).  When the vocabulary is
non-empty and does not contain the title-cased value, the vocabulary is
scanned in order and the first entry similar to the value at the default
threshold `0.6` replaces it (`break` on first match). -/
def fixDodgyThing (value : PyVal) (legit_values : List String) : String :=
  if legit_values ≠ [] ∧ normalizeBase value ∉ legit_values then
    match legit_values.find? (fun l => are_strings_similar (normalizeBase value) l (mkRat 3 5)) with
    | some l => l
    | _ => normalizeBase value
  else normalizeBase value

/-- Embedding of `fixDodgyStatuses` (common.py lines 606-607). -/
def fixDodgyStatuses (status : PyVal) : String :=
  fixDodgyThing status ["Completed", "Discontinued", "Enrolled"]

/-- Embedding of `fixDodgyAssessLevel` (common.py lines 618-619). -/
def fixDodgyAssessLevel (assessLevel : PyVal) : String :=
  fixDodgyThing assessLevel ["Consolidated", "Demonstrated"]

/-! ## Datasets and the external engine's join (common.py lines 816-889)

A dataset is a column list plus rows; a row maps a column name to an
optional cell value (`Option V`, `Option.none` being SQL null).  The
engine's three-valued logic is `Option Bool` with `Option.none` the
unknown truth value; a join keeps a pair of rows exactly when its
condition evaluates to `true` (not null, not false). -/

/-- A dataset row: column name to optional cell value. -/
def Row (V : Type) := String → Option V

/-- A dataset handle as the engine sees it: column names and rows. -/
structure DataFrame (V : Type) where
  cols : List String
  rows : List (Row V)

/-- Join type passed through to the engine (`how = joinType`,
default `"inner"` in `simpleMap`). -/
inductive JoinType where
  | inner
  | leftOuter
  | rightOuter
  | fullOuter
  deriving DecidableEq

/-- SQL three-valued equality of two optional values: null when either
side is null. -/
def eq3 {V : Type} [DecidableEq V] : Option V → Option V → Option Bool
  | some a, some b => some (decide (a = b))
  | _, _ => Option.none

/-- SQL three-valued conjunction. -/
def and3 : Option Bool → Option Bool → Option Bool
  | some false, _ => some false
  | _, some false => some false
  | some true, some true => some true
  | _, _ => Option.none

/-- SQL three-valued disjunction. -/
def or3 : Option Bool → Option Bool → Option Bool
  | some true, _ => some true
  | _, some true => some true
  | some false, some false => some false
  | _, _ => Option.none

/-- SQL `IS NULL` / the Column API `isNull()`: always a non-null boolean. -/
def isNull3 {V : Type} (x : Option V) : Option Bool := some x.isNone

/-- A three-valued condition holds (keeps a joined row) exactly when it
evaluates to `true`. -/
def condHolds (x : Option Bool) : Bool := x = some true

/-- The Column-API join condition built inline in `simpleMap` (line 847):
`(map.joinCol == fact.joinCol) | (map.joinCol.isNull() & fact.joinCol.isNull())`,
as a three-valued expression over the map-side and fact-side key values. -/
def simpleMapCond3 {V : Type} [DecidableEq V] (mv fv : Option V) : Option Bool :=
  or3 (eq3 mv fv) (and3 (isNull3 mv) (isNull3 fv))

/-- The row-level predicate `simpleMap` hands the engine as `on =`:
the inline condition applied to the two rows' `joinCol` cells. -/
def joinCondFn {V : Type} [DecidableEq V] (joinCol : String) (f m : Row V) : Bool :=
  condHolds (simpleMapCond3 (m joinCol) (f joinCol))

/-- Embedding of `getJoinCondition` (common.py lines 816-822): the SQL
text of the join condition (an `F.expr` string). -/
def getJoinCondition (factCol : String) (mapCol : Option String) : String :=
  let mc := mapCol.getD factCol
  "\n    (fact." ++ factCol ++ " = map." ++ mc ++
    "\n     OR (fact." ++ factCol ++ " IS NULL AND map." ++ mc ++ " IS NULL)\n    )"

/-- Denotation of the SQL text built by `getJoinCondition` under SQL
three-valued semantics, with `fv` the value of `fact.factCol` and `mv`
the value of `map.mapCol`:
`fact.factCol = map.mapCol OR (fact.factCol IS NULL AND map.mapCol IS NULL)`. -/
def getJoinConditionDenote {V : Type} [DecidableEq V] (fv mv : Option V) : Option Bool :=
  or3 (eq3 fv mv) (and3 (isNull3 fv) (isNull3 mv))

/-- The all-null row the engine pads unmatched rows with in outer joins. -/
def nullRow (V : Type) : Row V := fun _ => Option.none

/-- Engine-level join on a row-pair condition: matched pairs for an inner
join, padded unmatched rows for the outer variants. -/
def joinRows {V : Type} (cond : Row V → Row V → Bool) :
    JoinType → List (Row V) → List (Row V) → List (Row V × Row V)
  | .inner, ls, rs => ls.flatMap fun f => (rs.filter (cond f)).map fun m => (f, m)
  | .leftOuter, ls, rs => ls.flatMap fun f =>
      let ms := rs.filter (cond f)
      if ms.isEmpty then [(f, nullRow V)] else ms.map fun m => (f, m)
  | .rightOuter, ls, rs => rs.flatMap fun m =>
      let fs := ls.filter fun f => cond f m
      if fs.isEmpty then [(nullRow V, m)] else fs.map fun f => (f, m)
  | .fullOuter, ls, rs =>
      (ls.flatMap fun f =>
        let ms := rs.filter (cond f)
        if ms.isEmpty then [(f, nullRow V)] else ms.map fun m => (f, m)) ++
        ((rs.filter fun m => !ls.any fun f => cond f m).map fun m => (nullRow V, m))

/-- Projection of a metadata row by `metadataDF.select([indexCol, joinCol])`
(common.py line 834). -/
def projRow {V : Type} (indexCol joinCol : String) (r : Row V) : Row V :=
  fun c => if c = indexCol ∨ c = joinCol then r c else Option.none

/-- Character-level string prefix test (`str.startswith`). -/
def strHasPrefix (p s : String) : Bool := p.data.isPrefixOf s.data

/-- Character-level string drop (`s[n:]` for ASCII strings). -/
def strDropChars (n : Nat) (s : String) : String := ⟨s.data.drop n⟩

/-- Embedding of `insertColumnAndAlias` (common.py lines 879-889): splice
the surrogate-key column into the fact column list with
`insertValueIntoList`, alias the join column to the fact side and the
surrogate key to the map side, and qualify any remaining unqualified
column that also occurs in the map columns to the fact side. -/
def insertColumnAndAlias (columns : List String) (valColumn indexColumn : String)
    (mapColumns : List String) : List String :=
  let cols := insertValueIntoList columns valColumn indexColumn
  let aliased := cols.map fun c =>
    if c = valColumn then "fact." ++ c else if c = indexColumn then "map." ++ c else c
  if mapColumns ≠ [] then
    aliased.map fun c => if !c.data.contains '.' && c ∈ mapColumns then "fact." ++ c else c
  else aliased

/-- Output column name of a select item: `select("fact.c")` and
`select("map.c")` both yield a column named `c`. -/
def stripAlias (c : String) : String :=
  if strHasPrefix "fact." c then strDropChars 5 c
  else if strHasPrefix "map." c then strDropChars 4 c else c

/-- Cell value of a select item over a joined pair of rows: a
`fact.`-qualified name reads the fact row, a `map.`-qualified name reads
the map row, and an unqualified name resolves to the fact side (the only
side carrying unqualified names in `simpleMap`'s select list). -/
def selectItemVal {V : Type} (f m : Row V) (sc : String) : Option V :=
  if strHasPrefix "fact." sc then f (strDropChars 5 sc)
  else if strHasPrefix "map." sc then m (strDropChars 4 sc) else f sc

/-- The row produced by `.select(selectCols)` from a joined pair. -/
def selectRow {V : Type} (selectCols : List String) (f m : Row V) : Row V :=
  fun c =>
    match selectCols.find? (fun sc => stripAlias sc = c) with
    | some sc => selectItemVal f m sc
    | _ => Option.none

/-- The join pipeline of `simpleMap`'s else branch (common.py lines
845-853): project the metadata to `[indexCol, joinCol]`, join on the
inline null-tolerant condition with the requested join type, and select
the spliced/aliased column list. -/
def simpleMapJoin {V : Type} [DecidableEq V] (factDF metadataDF : DataFrame V)
    (joinCol : String) (joinType : JoinType) : DataFrame V :=
  let indexCol := metadataDF.cols.headD ""
  let selectCols := insertColumnAndAlias factDF.cols joinCol indexCol [indexCol, joinCol]
  let mapRows := metadataDF.rows.map (projRow indexCol joinCol)
  let joined := joinRows (fun f m => joinCondFn joinCol f m) joinType factDF.rows mapRows
  ⟨selectCols.map stripAlias, joined.map fun p => selectRow selectCols p.1 p.2⟩

/-- Failure conditions of `simpleMap`.  `missingJoinColumn` and
`surrogateKeyCollision` are the two `raise Exception(...)` calls (lines
841, 843) with the column name each message interpolates;
`joinCardinalityViolation` is the bare `raise ValueError` (line 861)
together with the `joinCol : before - after` diagnostic printed
immediately before it (line 858); `engineFailure` stands for an error
raised by the engine itself before the dispatch (`metadataDF.columns[0]`
on a column-less dataset, or `select` of a column absent from
`metadataDF`). -/
inductive DLError where
  | engineFailure (msg : String)
  | missingJoinColumn (joinCol : String)
  | surrogateKeyCollision (indexCol : String)
  | joinCardinalityViolation (joinCol : String) (before after : Nat)
  deriving DecidableEq

/-- Embedding of `simpleMap` (common.py lines 830-862).  In source order:
read the surrogate-key column name `metadataDF.columns[0]`, project the
metadata (these two steps fail on a malformed metadata dataset before any
dispatch), then dispatch on membership of `joinCol` and `indexCol` in the
fact columns, and finally run the join and enforce the row-count
invariant. -/
def simpleMap {V : Type} [DecidableEq V] (factDF metadataDF : DataFrame V)
    (joinCol : String) (joinType : JoinType) : Except DLError (DataFrame V) :=
  match metadataDF.cols with
  | [] => .error (.engineFailure "IndexError: metadataDF.columns is empty")
  | indexCol :: _ =>
    if joinCol ∈ metadataDF.cols then
      if joinCol ∈ factDF.cols then
        if indexCol ∈ factDF.cols then .error (.surrogateKeyCollision indexCol)
        else
          let before := factDF.rows.length
          let res := simpleMapJoin factDF metadataDF joinCol joinType
          if before = res.rows.length then .ok res
          else .error (.joinCardinalityViolation joinCol before res.rows.length)
      else
        if indexCol ∈ factDF.cols then .ok factDF
        else .error (.missingJoinColumn joinCol)
    else .error (.engineFailure ("AnalysisException: cannot resolve " ++ joinCol))

/-! ## Observers and concrete fixtures used by witnesses -/

/-- Observer: the column list of a successful `simpleMap` result. -/
def resultCols {V : Type} (r : Except DLError (DataFrame V)) : Option (List String) :=
  match r with
  | .ok df => some df.cols
  | _ => Option.none

/-- Observer: the error of a failed `simpleMap` result. -/
def resultErr {V : Type} (r : Except DLError (DataFrame V)) : Option DLError :=
  match r with
  | .error e => some e
  | _ => Option.none

/-- Fixture: a one-row fact dataset with columns `k` (join key) and `v`. -/
def factKV : DataFrame Int :=
  ⟨["k", "v"], [fun c => if c = "k" then some 1 else if c = "v" then some 2 else Option.none]⟩

/-- Fixture: a one-row lookup with surrogate key `id` and join key `k`. -/
def metaIdK : DataFrame Int :=
  ⟨["id", "k"], [fun c => if c = "id" then some 10 else if c = "k" then some 1 else Option.none]⟩

/-- Fixture: a two-row lookup whose join-key value `1` is duplicated
(deliberate fan-out). -/
def metaIdKdup : DataFrame Int :=
  ⟨["id", "k"],
   [fun c => if c = "id" then some 10 else if c = "k" then some 1 else Option.none,
    fun c => if c = "id" then some 11 else if c = "k" then some 1 else Option.none]⟩

/-! ## Claim C9: the list-splicing helper -/

/-- C9 counterexample: on `["a", "b", "c"]` with `old = "b"`, `new = "x"`,
the helper does not return the claimed positional replacement
`["a", "x", "c"]`; it also appends the old value at the end. -/
theorem insertValueIntoList_counterexample :
    insertValueIntoList ["a", "b", "c"] "b" "x" = ["a", "x", "c", "b"] ∧
    insertValueIntoList ["a", "b", "c"] "b" "x" ≠ ["a", "x", "c"] := by
  decide

/-- C9 (amended): `insertValueIntoList` appends `newVal` when `oldVal` is
absent (whether or not `newVal` is already present), is a no-op when both
values are present, and otherwise replaces every occurrence of `oldVal` by
`newVal` in place and then appends `oldVal` at the end. -/
theorem insertValueIntoList_spec (theList : List String) (oldVal newVal : String) :
    (oldVal ∉ theList →
      insertValueIntoList theList oldVal newVal = theList ++ [newVal])
    ∧ (oldVal ∈ theList → newVal ∈ theList →
      insertValueIntoList theList oldVal newVal = theList)
    ∧ (oldVal ∈ theList → newVal ∉ theList →
      insertValueIntoList theList oldVal newVal =
        replaceValueInList theList oldVal newVal ++ [oldVal]) := by
  refine ⟨fun h => ?_, fun h1 h2 => ?_, fun h1 h2 => ?_⟩
  · simp [insertValueIntoList, h]
  · simp [insertValueIntoList, h1, h2]
  · simp [insertValueIntoList, replaceValueInList, h1, h2]

/-- C9 witness: the replacement branch at a concrete input. -/
theorem insertValueIntoList_spec_witness :
    insertValueIntoList ["k", "v"] "k" "id" = ["id", "v", "k"] := by
  have h := (insertValueIntoList_spec ["k", "v"] "k" "id").2.2 (by decide) (by decide)
  simpa using h

/-! ## Claim C5: the coercion step of the normalizer -/

/-- C5 counterexample: the empty string is a non-null input, yet the
placeholder is substituted for it (Python truthiness, not a null check),
instead of the claimed title-cased coercion `""`. -/
theorem fixDodgyThing_empty_string_counterexample :
    (PyVal.vStr "" ≠ PyVal.vNone) ∧
    fixDodgyThing (PyVal.vStr "") [] = "None Supplied" ∧
    fixDodgyThing (PyVal.vStr "") [] ≠ pyTitle (pyStr (PyVal.vStr "")) := by
  decide

/-- Computation fact: the placeholder is a fixed point of title-casing. -/
theorem pyTitle_noneSupplied : pyTitle "None Supplied" = "None Supplied" := by
  decide

/-- C5 (amended): the placeholder `"None Supplied"` is substituted exactly
for the falsy inputs — null, the empty string and zero — and every other
input is coerced with `str()` and title-cased before matching. -/
theorem fixDodgyThing_placeholder_on_falsy (v : PyVal) :
    fixDodgyThing v [] =
      if v = PyVal.vNone ∨ v = PyVal.vStr "" ∨ v = PyVal.vInt 0 then "None Supplied"
      else pyTitle (pyStr v) := by
  have h : fixDodgyThing v [] = normalizeBase v := by
    unfold fixDodgyThing
    simp
  rw [h]
  unfold normalizeBase pyFalsy
  rcases v with _ | s | n
  · simpa using pyTitle_noneSupplied
  · by_cases hs : s = ""
    · subst hs
      simpa using pyTitle_noneSupplied
    · simp [hs, pyStr]
  · by_cases hn : n = 0
    · subst hn
      simpa using pyTitle_noneSupplied
    · simp [hn, pyStr]

/-! ## Claim C2: the join column is retained in the join output -/

/-- C2 (code evaluated at the failing input): on fact columns `["k", "v"]`
joined to lookup columns `["id", "k"]` on `k`, the successful output's
column list is `["id", "v", "k"]` — the surrogate key does take the old
position of the join column, but the join column is re-selected
(`fact.k`) at the end instead of being dropped, because
`insertValueIntoList` appends the old value. -/
theorem simpleMap_output_retains_joinCol :
    resultCols (simpleMap factKV metaIdK "k" JoinType.inner) = some ["id", "v", "k"] ∧
    insertColumnAndAlias ["k", "v"] "k" "id" ["id", "k"] = ["map.id", "v", "fact.k"] := by
  decide

/-! ## Claim C6: symmetry of the similarity ratio -/

/-- C6 counterexample: the sequence-matcher ratio is order-dependent.
For `a = "abxcdyab"` and `b = "cdzab"` the ratio is `4/13` one way and
`8/13` the other (the greedy longest-block tie-break picks `"ab"` in one
direction and `"cd"` in the other, stranding different remainders), so at
threshold `0.6` the two argument orders give different verdicts. -/
theorem ratio_asymmetric_counterexample :
    difflibRatio "abxcdyab".data "cdzab".data ≠ difflibRatio "cdzab".data "abxcdyab".data ∧
    are_strings_similar "abxcdyab" "cdzab" (mkRat 3 5) = false ∧
    are_strings_similar "cdzab" "abxcdyab" (mkRat 3 5) = true := by
  decide

/-- C6 (amended): the similarity verdict is insensitive to argument order
exactly to the extent the underlying ratio is: whenever
`ratio(a, b) = ratio(b, a)` the two verdicts agree for every threshold;
full symmetry of the ratio itself fails (see the counterexample). -/
theorem are_strings_similar_symm_of_ratio_eq (a b : String) (t : ℚ)
    (h : difflibRatio a.data b.data = difflibRatio b.data a.data) :
    are_strings_similar a b t = are_strings_similar b a t := by
  unfold are_strings_similar
  rw [h]

/-- C6 witness: equal strings have equal ratios in both orders, hence
equal verdicts. -/
theorem are_strings_similar_symm_witness :
    are_strings_similar "Completed" "Completed" (mkRat 3 5)
      = are_strings_similar "Completed" "Completed" (mkRat 3 5) :=
  are_strings_similar_symm_of_ratio_eq "Completed" "Completed" (mkRat 3 5) rfl

/-! ## Claim C8: the null-tolerant join condition -/

/-- Helper: the null-tolerant equality condition holds exactly on equal
values or two nulls. -/
theorem condHolds_nullSafeEq {V : Type} [DecidableEq V] (x y : Option V) :
    condHolds (or3 (eq3 x y) (and3 (isNull3 x) (isNull3 y))) = true ↔
      ((∃ v, x = some v ∧ y = some v) ∨ (x = Option.none ∧ y = Option.none)) := by
  rcases x with _ | a <;> rcases y with _ | b
  · simp [condHolds, eq3, or3, and3, isNull3]
  · simp [condHolds, eq3, or3, and3, isNull3]
  · simp [condHolds, eq3, or3, and3, isNull3]
  · by_cases hab : a = b
    · subst hab
      simp [condHolds, eq3, or3, and3, isNull3]
    · have hd : decide (a = b) = false := decide_eq_false hab
      constructor
      · intro h
        simp [condHolds, eq3, or3, and3, isNull3, hd] at h
      · rintro (⟨v, hv, hv'⟩ | ⟨hv, hv'⟩)
        · have h1 : a = v := by injection hv
          have h2 : b = v := by injection hv'
          exact absurd (h1.trans h2.symm) hab
        · exact absurd hv (by simp)

/-- C8: the condition `simpleMap` joins on matches a fact row to a lookup
row exactly when the two join-key cells hold equal values or are both
null; a null key on both sides is a match, not an exclusion. -/
theorem joinCondFn_iff {V : Type} [DecidableEq V] (joinCol : String) (f m : Row V) :
    joinCondFn joinCol f m = true ↔
      ((∃ v, f joinCol = some v ∧ m joinCol = some v) ∨
        (f joinCol = Option.none ∧ m joinCol = Option.none)) := by
  unfold joinCondFn simpleMapCond3
  rw [condHolds_nullSafeEq (m joinCol) (f joinCol)]
  constructor
  · rintro (⟨v, hm, hf⟩ | ⟨hm, hf⟩)
    · exact Or.inl ⟨v, hf, hm⟩
    · exact Or.inr ⟨hf, hm⟩
  · rintro (⟨v, hf, hm⟩ | ⟨hf, hm⟩)
    · exact Or.inl ⟨v, hm, hf⟩
    · exact Or.inr ⟨hm, hf⟩

/-! ## Claim C10: the SQL-text condition and the inline condition agree -/

/-- C10: the three-valued denotation of the SQL condition built by
`getJoinCondition` equals the inline Column-API condition of `simpleMap`
on every pair of optional key values, and both hold exactly when the two
values are equal or both null. -/
theorem getJoinCondition_refines_simpleMapCond {V : Type} [DecidableEq V] (fv mv : Option V) :
    getJoinConditionDenote fv mv = simpleMapCond3 mv fv ∧
    (condHolds (getJoinConditionDenote fv mv) = true ↔
      ((∃ v, fv = some v ∧ mv = some v) ∨ (fv = Option.none ∧ mv = Option.none))) := by
  constructor
  · unfold getJoinConditionDenote simpleMapCond3
    rcases fv with _ | a <;> rcases mv with _ | b
    · rfl
    · rfl
    · rfl
    · by_cases hab : a = b
      · subst hab
        rfl
      · have h1 : decide (a = b) = false := decide_eq_false hab
        have h2 : decide (b = a) = false := decide_eq_false fun h => hab h.symm
        simp [eq3, or3, and3, isNull3, h1, h2]
  · exact condHolds_nullSafeEq fv mv

/-! ## Claim C3: the dispatch of simpleMap -/

/-- C3: with a well-formed lookup (a leading surrogate-key column and the
join column present), `simpleMap` dispatches exactly as claimed: absent
join column with the surrogate key present is an idempotent no-op; absent
join column without the surrogate key fails with `missingJoinColumn`
naming the join column; join column present together with the surrogate
key fails with `surrogateKeyCollision`; otherwise the call proceeds to the
join pipeline guarded by the row-count check. -/
theorem simpleMap_dispatch {V : Type} [DecidableEq V] (factDF metadataDF : DataFrame V)
    (joinCol : String) (joinType : JoinType) (indexCol : String) (rest : List String)
    (hcols : metadataDF.cols = indexCol :: rest) (hjm : joinCol ∈ metadataDF.cols) :
    (joinCol ∉ factDF.cols → indexCol ∈ factDF.cols →
      simpleMap factDF metadataDF joinCol joinType = .ok factDF)
    ∧ (joinCol ∉ factDF.cols → indexCol ∉ factDF.cols →
      simpleMap factDF metadataDF joinCol joinType = .error (.missingJoinColumn joinCol))
    ∧ (joinCol ∈ factDF.cols → indexCol ∈ factDF.cols →
      simpleMap factDF metadataDF joinCol joinType = .error (.surrogateKeyCollision indexCol))
    ∧ (joinCol ∈ factDF.cols → indexCol ∉ factDF.cols →
      simpleMap factDF metadataDF joinCol joinType =
        (if factDF.rows.length = (simpleMapJoin factDF metadataDF joinCol joinType).rows.length
         then .ok (simpleMapJoin factDF metadataDF joinCol joinType)
         else .error (.joinCardinalityViolation joinCol factDF.rows.length
            (simpleMapJoin factDF metadataDF joinCol joinType).rows.length))) := by
  refine ⟨fun h1 h2 => ?_, fun h1 h2 => ?_, fun h1 h2 => ?_, fun h1 h2 => ?_⟩ <;>
    · unfold simpleMap
      rw [hcols]
      simp only []
      rw [← hcols]
      simp [h1, h2, hjm]

/-- C3 witness: the idempotent no-op branch at a concrete input. -/
theorem simpleMap_dispatch_witness :
    simpleMap (⟨["id", "v"], []⟩ : DataFrame Int) metaIdK "k" JoinType.inner
      = .ok (⟨["id", "v"], []⟩ : DataFrame Int) :=
  (simpleMap_dispatch (⟨["id", "v"], []⟩ : DataFrame Int) metaIdK "k" JoinType.inner
    "id" ["k"] rfl (by decide)).1 (by decide) (by decide)

/-! ## Claim C1: the row-count invariant -/

/-- C1: once `simpleMap` passes its precondition checks, the joined and
re-projected result is returned exactly when its row count equals the
fact row count; otherwise the call fails with the cardinality-violation
condition carrying the join column and the before/after counts. -/
theorem simpleMap_cardinality_check {V : Type} [DecidableEq V] (factDF metadataDF : DataFrame V)
    (joinCol : String) (joinType : JoinType) (indexCol : String) (rest : List String)
    (hcols : metadataDF.cols = indexCol :: rest) (hjm : joinCol ∈ metadataDF.cols)
    (hjf : joinCol ∈ factDF.cols) (hix : indexCol ∉ factDF.cols) :
    ((simpleMapJoin factDF metadataDF joinCol joinType).rows.length = factDF.rows.length →
      simpleMap factDF metadataDF joinCol joinType
        = .ok (simpleMapJoin factDF metadataDF joinCol joinType))
    ∧ ((simpleMapJoin factDF metadataDF joinCol joinType).rows.length ≠ factDF.rows.length →
      simpleMap factDF metadataDF joinCol joinType
        = .error (.joinCardinalityViolation joinCol factDF.rows.length
            (simpleMapJoin factDF metadataDF joinCol joinType).rows.length)) := by
  constructor
  · intro hlen
    unfold simpleMap
    rw [hcols]
    simp only []
    rw [← hcols]
    simp [hjm, hjf, hix, hlen]
  · intro hlen
    have hlen' : ¬ factDF.rows.length = (simpleMapJoin factDF metadataDF joinCol joinType).rows.length :=
      fun h => hlen h.symm
    unfold simpleMap
    rw [hcols]
    simp only []
    rw [← hcols]
    simp [hjm, hjf, hix, hlen']

/-- C1 witness: a duplicated lookup key fans the single fact row out to
two rows, and the call fails carrying the join column and the counts
`1` and `2`. -/
theorem simpleMap_cardinality_check_witness :
    simpleMap factKV metaIdKdup "k" JoinType.inner
      = .error (.joinCardinalityViolation "k" 1 2) := by
  have h := (simpleMap_cardinality_check factKV metaIdKdup "k" JoinType.inner
    "id" ["k"] rfl (by decide) (by decide) (by decide)).2 (by decide)
  simpa using h

/-! ## Claim C4: first-match scanning of the normalizer -/

/-- Helper: `find?` returns the head of the first satisfying split. -/
theorem find?_first_of_split {α : Type} (p : α → Bool) (pre : List α) (x : α) (suf : List α)
    (hpre : ∀ a ∈ pre, p a = false) (hx : p x = true) :
    (pre ++ x :: suf).find? p = some x := by
  induction pre with
  | nil => simpa using List.find?_cons_of_pos suf hx
  | cons a as ih =>
    have ha : p a = false := hpre a (by simp)
    have hsplit : ((a :: as) ++ x :: suf) = a :: (as ++ x :: suf) := rfl
    rw [hsplit, List.find?_cons_of_neg _ (by simp [ha])]
    exact ih fun b hb => hpre b (by simp [hb])

/-- C4: for a non-null input, `fixDodgyThing` returns the title-cased
value unchanged when the vocabulary is empty or already contains it;
otherwise it scans the vocabulary in order and returns the first entry
similar to the value at threshold `0.6` (first-match wins), or the
title-cased value itself when no entry qualifies — never an error. -/
theorem fixDodgyThing_first_match (value : PyVal) (hv : value ≠ PyVal.vNone)
    (legit_values : List String) :
    (legit_values = [] → fixDodgyThing value legit_values = normalizeBase value)
    ∧ (normalizeBase value ∈ legit_values →
        fixDodgyThing value legit_values = normalizeBase value)
    ∧ (normalizeBase value ∉ legit_values →
        ∀ pre l suf, legit_values = pre ++ l :: suf →
          (∀ p ∈ pre, are_strings_similar (normalizeBase value) p (mkRat 3 5) = false) →
          are_strings_similar (normalizeBase value) l (mkRat 3 5) = true →
          fixDodgyThing value legit_values = l)
    ∧ (normalizeBase value ∉ legit_values →
        (∀ l ∈ legit_values, are_strings_similar (normalizeBase value) l (mkRat 3 5) = false) →
        fixDodgyThing value legit_values = normalizeBase value) := by
  refine ⟨fun h => ?_, fun h => ?_, fun hnm pre l suf hsplit hpre hl => ?_, fun hnm hall => ?_⟩
  · simp [fixDodgyThing, h]
  · simp [fixDodgyThing, h]
  · subst hsplit
    unfold fixDodgyThing
    rw [if_pos ⟨by simp, hnm⟩, find?_first_of_split _ pre l suf hpre hl]
  · by_cases hne : legit_values = []
    · simp [fixDodgyThing, hne]
    · unfold fixDodgyThing
      rw [if_pos ⟨hne, hnm⟩, List.find?_eq_none.mpr fun x hx => by simp [hall x hx]]

/-- C4 witness: the spec's own scanning example, `"completd"` against the
status vocabulary, lands on `"Completed"` (ratio `16/17 ≥ 0.6`). -/
theorem fixDodgyThing_first_match_witness :
    fixDodgyThing (PyVal.vStr "completd") ["Completed", "Discontinued", "Enrolled"]
      = "Completed" := by
  have h := (fixDodgyThing_first_match (PyVal.vStr "completd") (by decide)
    ["Completed", "Discontinued", "Enrolled"]).2.2.1 (by decide)
    [] "Completed" ["Discontinued", "Enrolled"] rfl (by simp) (by decide)
  simpa using h

/-! ## Claim C7: idempotence of the normalizer

Helper lemmas: title-casing is idempotent and length-preserving, string
coercion never produces the empty string, and the similarity of a
non-empty string to the empty string is `0` (below any positive
threshold). -/

/-- Helper: `Char.ofNat` of a valid small code point round-trips. -/
theorem charToNat_ofNat {n : Nat} (h : n < 55296) : (Char.ofNat n).toNat = n := by
  have hv : Nat.isValidChar n := Or.inl h
  have hlt : n < 4294967296 := by omega
  have hlt' : n < UInt32.size := hlt
  simp only [Char.ofNat, dif_pos hv, Char.ofNatAux, Char.toNat, UInt32.ofNat', UInt32.toNat]
  simp [Fin.ofNat', Nat.mod_eq_of_lt hlt']

/-- Helper: uppercasing preserves the cased-character class. -/
theorem isAsciiAlpha_asciiUpper (c : Char) : isAsciiAlpha (asciiUpper c) = isAsciiAlpha c := by
  unfold asciiUpper
  by_cases h : 97 ≤ c.toNat ∧ c.toNat ≤ 122
  · rw [if_pos h]
    unfold isAsciiAlpha
    rw [charToNat_ofNat (by omega), decide_eq_decide]
    omega
  · rw [if_neg h]

/-- Helper: lowercasing preserves the cased-character class. -/
theorem isAsciiAlpha_asciiLower (c : Char) : isAsciiAlpha (asciiLower c) = isAsciiAlpha c := by
  unfold asciiLower
  by_cases h : 65 ≤ c.toNat ∧ c.toNat ≤ 90
  · rw [if_pos h]
    unfold isAsciiAlpha
    rw [charToNat_ofNat (by omega), decide_eq_decide]
    omega
  · rw [if_neg h]

/-- Helper: uppercasing is idempotent. -/
theorem asciiUpper_asciiUpper (c : Char) : asciiUpper (asciiUpper c) = asciiUpper c := by
  by_cases h : 97 ≤ c.toNat ∧ c.toNat ≤ 122
  · have h1 : asciiUpper c = Char.ofNat (c.toNat - 32) := by
      unfold asciiUpper
      rw [if_pos h]
    rw [h1]
    unfold asciiUpper
    rw [if_neg (by rw [charToNat_ofNat (by omega)]; omega)]
  · have h1 : asciiUpper c = c := by
      unfold asciiUpper
      rw [if_neg h]
    rw [h1, h1]

/-- Helper: lowercasing is idempotent. -/
theorem asciiLower_asciiLower (c : Char) : asciiLower (asciiLower c) = asciiLower c := by
  by_cases h : 65 ≤ c.toNat ∧ c.toNat ≤ 90
  · have h1 : asciiLower c = Char.ofNat (c.toNat + 32) := by
      unfold asciiLower
      rw [if_pos h]
    rw [h1]
    unfold asciiLower
    rw [if_neg (by rw [charToNat_ofNat (by omega)]; omega)]
  · have h1 : asciiLower c = c := by
      unfold asciiLower
      rw [if_neg h]
    rw [h1, h1]

/-- Helper: the title-casing loop is idempotent from any word state. -/
theorem pyTitleAux_idem (l : List Char) : ∀ b, pyTitleAux b (pyTitleAux b l) = pyTitleAux b l := by
  induction l with
  | nil => intro b; rfl
  | cons c cs ih =>
    intro b
    by_cases hc : isAsciiAlpha c = true
    · cases b
      · have hd : isAsciiAlpha (asciiUpper c) = true := by
          rw [isAsciiAlpha_asciiUpper]
          exact hc
        simp [pyTitleAux, hc, hd, asciiUpper_asciiUpper, ih true]
      · have hd : isAsciiAlpha (asciiLower c) = true := by
          rw [isAsciiAlpha_asciiLower]
          exact hc
        simp [pyTitleAux, hc, hd, asciiLower_asciiLower, ih true]
    · have hc' : isAsciiAlpha c = false := by simpa using hc
      simp [pyTitleAux, hc', ih false]

/-- Helper: the title-casing loop preserves length. -/
theorem pyTitleAux_length (l : List Char) : ∀ b, (pyTitleAux b l).length = l.length := by
  induction l with
  | nil => intro b; rfl
  | cons c cs ih =>
    intro b
    by_cases hc : isAsciiAlpha c = true
    · simp [pyTitleAux, hc, ih true]
    · have hc' : isAsciiAlpha c = false := by simpa using hc
      simp [pyTitleAux, hc', ih false]

/-- Helper: `str.title` is idempotent. -/
theorem pyTitle_idem (s : String) : pyTitle (pyTitle s) = pyTitle s :=
  congrArg String.mk (pyTitleAux_idem s.data false)

/-- Helper: `str.title` preserves length. -/
theorem pyTitle_data_length (s : String) : (pyTitle s).data.length = s.data.length :=
  pyTitleAux_length s.data false

/-- Helper: `str.title` of a non-empty string is non-empty. -/
theorem pyTitle_ne_empty {s : String} (h : s ≠ "") : pyTitle s ≠ "" := by
  intro h0
  apply h
  have hl := pyTitle_data_length s
  rw [h0] at hl
  obtain ⟨l⟩ := s
  cases l with
  | nil => rfl
  | cons c cs => simp at hl

/-- Helper: the digit-emitting loop never shrinks its accumulator. -/
theorem toDigitsCore_length_le (b : Nat) :
    ∀ (fuel n : Nat) (ds : List Char), ds.length ≤ (Nat.toDigitsCore b fuel n ds).length := by
  intro fuel
  induction fuel with
  | zero =>
    intro n ds
    exact Nat.le_refl _
  | succ fuel ih =>
    intro n ds
    unfold Nat.toDigitsCore
    by_cases h : n / b = 0
    · rw [if_pos h]
      simp
    · rw [if_neg h]
      calc ds.length ≤ (Nat.digitChar (n % b) :: ds).length := by simp
        _ ≤ _ := ih (n / b) _

/-- Helper: a natural number renders to at least one digit. -/
theorem toDigits_length_pos (b n : Nat) : 0 < (Nat.toDigits b n).length := by
  unfold Nat.toDigits
  unfold Nat.toDigitsCore
  by_cases h : n / b = 0
  · rw [if_pos h]
    simp
  · rw [if_neg h]
    calc 0 < (Nat.digitChar (n % b) :: ([] : List Char)).length := by simp
      _ ≤ _ := toDigitsCore_length_le b n (n / b) _

/-- Helper: `Nat.repr` is never the empty string. -/
theorem natRepr_ne_empty (n : Nat) : Nat.repr n ≠ "" := by
  intro h
  have hd : (Nat.repr n).data = Nat.toDigits 10 n := rfl
  have hlen : (Nat.repr n).data.length = 0 := by
    rw [h]
    rfl
  rw [hd] at hlen
  have := toDigits_length_pos 10 n
  omega

/-- Helper: `Int.repr` (Python `str()` of an integer) is never empty. -/
theorem intRepr_ne_empty (n : Int) : Int.repr n ≠ "" := by
  cases n with
  | ofNat m => exact natRepr_ne_empty m
  | negSucc m =>
    intro h
    have hd : (Int.repr (Int.negSucc m)).data = '-' :: (Nat.repr (m + 1)).data := rfl
    have hlen : (Int.repr (Int.negSucc m)).data.length = 0 := by
      rw [h]
      rfl
    rw [hd] at hlen
    simp at hlen

/-- Helper: the value entering vocabulary matching is never empty. -/
theorem normalizeBase_ne_empty (v : PyVal) : normalizeBase v ≠ "" := by
  unfold normalizeBase
  by_cases hf : pyFalsy v = true
  · rw [if_pos hf]
    exact pyTitle_ne_empty (by decide)
  · rw [if_neg hf]
    apply pyTitle_ne_empty
    rcases v with _ | s | n
    · simp [pyFalsy] at hf
    · simp [pyFalsy] at hf
      simpa [pyStr] using hf
    · simpa [pyStr] using intRepr_ne_empty n

/-- Helper: the value entering vocabulary matching is a title-case fixed
point. -/
theorem normalizeBase_titlecased (v : PyVal) : pyTitle (normalizeBase v) = normalizeBase v := by
  unfold normalizeBase
  exact pyTitle_idem _

/-- Helper: the position index of the empty string is empty. -/
theorem b2jGet_nil (c : Char) : b2jGet [] c = [] := by
  simp [b2jGet]

/-- Helper: a scan row over no positions only resets the chain table. -/
theorem flmRow_nil (blo bhi i : Nat) (st : FlmState) :
    flmRow blo bhi i [] st = ⟨fun _ => 0, st.besti, st.bestj, st.bestsize⟩ := rfl

/-- Helper: folding scan rows with empty position lists never moves the
best block. -/
theorem flmFoldNil_best (blo bhi : Nat) (jsf : Nat → List Nat) (hjs : ∀ i, jsf i = [])
    (is : List Nat) :
    ∀ st : FlmState,
      ((is.foldl (fun st i => flmRow blo bhi i (jsf i) st) st).besti = st.besti
      ∧ (is.foldl (fun st i => flmRow blo bhi i (jsf i) st) st).bestj = st.bestj
      ∧ (is.foldl (fun st i => flmRow blo bhi i (jsf i) st) st).bestsize = st.bestsize) := by
  induction is with
  | nil =>
    intro st
    exact ⟨rfl, rfl, rfl⟩
  | cons i is ih =>
    intro st
    simp only [List.foldl_cons, hjs i, flmRow_nil]
    exact ih _

/-- Helper: the left extension loop stops immediately when its guard
fails. -/
theorem extendLeft_stop (a b : List Char) (alo blo fuel bi bj bs : Nat)
    (h : ¬(alo < bi ∧ blo < bj ∧ (a.get? (bi - 1)).isSome ∧ a.get? (bi - 1) = b.get? (bj - 1))) :
    extendLeft a b alo blo fuel (bi, bj, bs) = (bi, bj, bs) := by
  cases fuel with
  | zero => rfl
  | succ fuel =>
    simp only [extendLeft]
    rw [if_neg h]

/-- Helper: the right extension loop stops immediately when its guard
fails. -/
theorem extendRight_stop (a b : List Char) (ahi bhi bi bj fuel bs : Nat)
    (h : ¬(bi + bs < ahi ∧ bj + bs < bhi ∧ (a.get? (bi + bs)).isSome
          ∧ a.get? (bi + bs) = b.get? (bj + bs))) :
    extendRight a b ahi bhi bi bj fuel bs = bs := by
  cases fuel with
  | zero => rfl
  | succ fuel =>
    simp only [extendRight]
    rw [if_neg h]

/-- Helper: against the empty string no block is ever found. -/
theorem find_longest_match_nil_right (a : List Char) (alo ahi blo : Nat) :
    find_longest_match a [] alo ahi blo 0 = (alo, blo, 0) := by
  have hjs : ∀ i, (match a.get? i with | some c => b2jGet [] c | _ => ([] : List Nat)) = [] := by
    intro i
    rcases a.get? i with _ | c
    · rfl
    · exact b2jGet_nil c
  have hcore := flmFoldNil_best blo 0
    (fun i => match a.get? i with | some c => b2jGet [] c | _ => []) hjs
    (List.range' alo (ahi - alo)) ⟨fun _ => 0, alo, blo, 0⟩
  have h1 : (flmCore a [] alo ahi blo 0).besti = alo := hcore.1
  have h2 : (flmCore a [] alo ahi blo 0).bestj = blo := hcore.2.1
  have h3 : (flmCore a [] alo ahi blo 0).bestsize = 0 := hcore.2.2
  simp only [find_longest_match]
  rw [h1, h2, h3]
  rw [extendLeft_stop a [] alo blo alo alo blo 0 (by omega)]
  rw [extendRight_stop a [] ahi 0 alo blo ahi 0 (by omega)]

/-- Helper: the total match count against the empty string is zero. -/
theorem matchSum_nil_right (a : List Char) : matchSum a [] = 0 := by
  unfold matchSum
  simp only [List.length_nil, Nat.add_zero]
  simp only [matchSumFuel]
  rw [find_longest_match_nil_right]
  simp

/-- Helper: a non-empty string is never similar to the empty string at
the default threshold (its ratio is `0`). -/
theorem similar_empty_right {v : String} (hv : v ≠ "") :
    are_strings_similar v "" (mkRat 3 5) = false := by
  unfold are_strings_similar difflibRatio
  have hd : ("" : String).data = [] := rfl
  rw [hd, matchSum_nil_right]
  have hlen : v.data.length ≠ 0 := by
    intro h0
    apply hv
    obtain ⟨l⟩ := v
    cases l with
    | nil => rfl
    | cons c cs => simp at h0
  rw [if_neg (by simpa using hlen)]
  simp
  decide

/-- C7 counterexample: with the vocabulary `["ABCDEF"]` (not title-case
fixed) and input `"a b c d e f"`, the first pass lands on `"ABCDEF"`
(ratio `12/17 ≥ 0.6`), but a second pass title-cases it to `"Abcdef"`,
which no longer matches the vocabulary (ratio `1/6`): `normalize` is not
idempotent for arbitrary vocabularies. -/
theorem fixDodgyThing_not_idempotent_counterexample :
    fixDodgyThing (PyVal.vStr "a b c d e f") ["ABCDEF"] = "ABCDEF" ∧
    fixDodgyThing (PyVal.vStr (fixDodgyThing (PyVal.vStr "a b c d e f") ["ABCDEF"]))
        ["ABCDEF"] = "Abcdef" ∧
    ("Abcdef" : String) ≠ "ABCDEF" := by
  decide

/-- C7 (amended): `fixDodgyThing` is idempotent on every vocabulary whose
entries are title-case fixed points (as the two preset vocabularies are);
the value fed back is the string the first pass returned. -/
theorem fixDodgyThing_idem_of_titlecased_vocab (value : PyVal) (legit_values : List String)
    (hvocab : ∀ l ∈ legit_values, pyTitle l = l) :
    fixDodgyThing (PyVal.vStr (fixDodgyThing value legit_values)) legit_values
      = fixDodgyThing value legit_values := by
  have hb : ∀ s : String, s ≠ "" → pyTitle s = s → normalizeBase (PyVal.vStr s) = s := by
    intro s hs hts
    unfold normalizeBase
    rw [if_neg (by simpa [pyFalsy] using hs)]
    exact hts
  have ht := normalizeBase_ne_empty value
  have htt := normalizeBase_titlecased value
  by_cases hc : legit_values ≠ [] ∧ normalizeBase value ∉ legit_values
  · rcases hfind : legit_values.find?
        (fun l => are_strings_similar (normalizeBase value) l (mkRat 3 5)) with _ | l
    · have hy : fixDodgyThing value legit_values = normalizeBase value := by
        unfold fixDodgyThing
        rw [if_pos hc, hfind]
      rw [hy]
      unfold fixDodgyThing
      rw [hb _ ht htt, if_pos hc, hfind]
    · have hsim : are_strings_similar (normalizeBase value) l (mkRat 3 5) = true :=
        @List.find?_some String
          (fun x => are_strings_similar (normalizeBase value) x (mkRat 3 5)) l legit_values hfind
      have hmem : l ∈ legit_values :=
        @List.mem_of_find?_eq_some String
          (fun x => are_strings_similar (normalizeBase value) x (mkRat 3 5)) l legit_values hfind
      have hl : l ≠ "" := by
        intro h0
        subst h0
        rw [similar_empty_right ht] at hsim
        exact Bool.false_ne_true hsim
      have hy : fixDodgyThing value legit_values = l := by
        unfold fixDodgyThing
        rw [if_pos hc, hfind]
      rw [hy]
      unfold fixDodgyThing
      rw [hb l hl (hvocab l hmem), if_neg (fun h => h.2 hmem)]
  · have hy : fixDodgyThing value legit_values = normalizeBase value := by
      unfold fixDodgyThing
      rw [if_neg hc]
    rw [hy]
    unfold fixDodgyThing
    rw [hb _ ht htt, if_neg hc]

/-- C7 witness: idempotence at the preset status vocabulary (whose
entries are title-case fixed) on the fuzzy-matched input `"completd"`. -/
theorem fixDodgyThing_idem_witness :
    fixDodgyThing (PyVal.vStr (fixDodgyThing (PyVal.vStr "completd")
        ["Completed", "Discontinued", "Enrolled"])) ["Completed", "Discontinued", "Enrolled"]
      = fixDodgyThing (PyVal.vStr "completd") ["Completed", "Discontinued", "Enrolled"] :=
  fixDodgyThing_idem_of_titlecased_vocab (PyVal.vStr "completd")
    ["Completed", "Discontinued", "Enrolled"] (by decide)

end Datalake
